import Mathlib

/-!
Shallow embedding of the library-pack configuration and packing code.

Optional record fields of the TypeScript code are modelled as Option
values (none = key absent or undefined). JavaScript truthiness is made
explicit: a string is truthy when nonempty, a boolean when true, and
arrays and objects are always truthy.
-/

namespace LibraryPack

/-- Declaration block of the oxc-transform TypeScript options.
The field stripInternal stands for the remaining sub-fields that the
repository never touches and only spreads through. -/
structure DeclarationOptions where
  sourcemap : Option Bool
  stripInternal : Option Bool
deriving DecidableEq

/-- TypeScript block of the oxc-transform options.
The field onlyRemoveTypeImports stands for the remaining sub-fields that
the repository never touches and only spreads through. -/
structure TypescriptOptions where
  declaration : Option DeclarationOptions
  onlyRemoveTypeImports : Option Bool
deriving DecidableEq

/-- PackOptions from src part_000: oxc TransformOptions fields used by
the code (sourcemap, typescript, with lang standing for the remaining
passed-through transform fields) plus srcdir, outdir, includes,
excludes and emptyOutdir. Every field is optional in the source. -/
structure PackOptions where
  srcdir : Option String
  outdir : Option String
  includes : Option (List String)
  excludes : Option (List String)
  emptyOutdir : Option Bool
  sourcemap : Option Bool
  typescript : Option TypescriptOptions
  lang : Option String
deriving DecidableEq

/-- The empty options object, written as a record with no key set. -/
def emptyPack : PackOptions :=
  { srcdir := none, outdir := none, includes := none, excludes := none,
    emptyOutdir := none, sourcemap := none, typescript := none, lang := none }

/-- JavaScript a || d for an optional string a: the empty string is
falsy, so a present empty string falls back to the default. -/
def orStr : Option String → String → String
  | some s, d => if s = "" then d else s
  | none, d => d

/-- JavaScript a || d for an optional boolean a: false is falsy. -/
def orBool : Option Bool → Bool → Bool
  | some b, d => b || d
  | none, d => d

/-- JavaScript a || d for an optional array a: every array, the empty
array included, is truthy, so a present array always wins. -/
def orList : Option (List String) → List String → List String
  | some l, _ => l
  | none, d => d

/-- JavaScript a || d for an optional object a: every object is truthy,
so a present object always wins. -/
def orDecl : Option DeclarationOptions → DeclarationOptions → DeclarationOptions
  | some x, _ => x
  | none, d => d

/-- The typescript part of resolveOptions (src part_000 lines 78-83):
spread of options.typescript, with declaration set to the present
declaration object, or else to a fresh block whose sourcemap is the
truthy-or-true of the (then absent) nested sourcemap. -/
def resolveTypescript (t : Option TypescriptOptions) : TypescriptOptions :=
  let decl := t.bind TypescriptOptions.declaration
  { declaration := some (orDecl decl
      { sourcemap := some (orBool (decl.bind DeclarationOptions.sourcemap) true),
        stripInternal := none }),
    onlyRemoveTypeImports := t.bind TypescriptOptions.onlyRemoveTypeImports }

/-- resolveOptions from src part_000 lines 66-85: spread of options,
then each listed field overwritten by its JavaScript truthy-or-default
value. Note the source defaults includes to a list holding only the
pattern of ts files, and never touches emptyOutdir. -/
def resolveOptions (options : PackOptions) : PackOptions :=
  { options with
    srcdir := some (orStr options.srcdir "src"),
    outdir := some (orStr options.outdir "out"),
    includes := some (orList options.includes ["**/*.ts"]),
    excludes := some (orList options.excludes
      ["node_modules/**/*", "**/*.test.ts", "**/test/**/*"]),
    sourcemap := some (orBool options.sourcemap true),
    typescript := some (resolveTypescript options.typescript) }

/-- Split a character list on a separator character, keeping empty
segments, as the Node path functions see a slash-separated path. -/
def splitChars (sep : Char) : List Char → List (List Char)
  | [] => [[]]
  | c :: rest =>
    let r := splitChars sep rest
    if c = sep then [] :: r
    else
      match r with
      | [] => [[c]]
      | h :: t => (c :: h) :: t

/-- The slash-separated raw segments of a path string. -/
def segsOf (p : String) : List String :=
  (splitChars '/' p.toList).map (fun l => String.mk l)

/-- Join segments back with slashes. -/
def joinSegs : List String → String
  | [] => ""
  | [s] => s
  | s :: rest => s ++ "/" ++ joinSegs rest

/-- A path is absolute when it starts with a slash. -/
def isAbs (p : String) : Bool :=
  match p.toList with
  | '/' :: _ => true
  | _ => false

/-- Normalization of the segments of an absolute path, as Node
path.resolve performs it: empty and dot segments vanish, a dot-dot
segment pops the previous one and vanishes at the root. The
accumulator is kept reversed. -/
def absNormAux (acc : List String) : List String → List String
  | [] => acc.reverse
  | s :: rest =>
    if s = "" || s = "." then absNormAux acc rest
    else if s = ".." then
      match acc with
      | [] => absNormAux [] rest
      | _ :: as => absNormAux as rest
    else absNormAux (s :: acc) rest

/-- Normalization of the segments of a relative path, as Node
path.normalize performs it: leading dot-dot segments are kept. The
accumulator is kept reversed. -/
def relNormAux (acc : List String) : List String → List String
  | [] => acc.reverse
  | s :: rest =>
    if s = "" || s = "." then relNormAux acc rest
    else if s = ".." then
      match acc with
      | [] => relNormAux [s] rest
      | a :: as => if a = ".." then relNormAux (s :: acc) rest else relNormAux as rest
    else relNormAux (s :: acc) rest

/-- The normalized segment list of a path made absolute against the
working directory, as Node path.resolve computes it. -/
def absSegs (cwd p : String) : List String :=
  absNormAux [] (segsOf (if isAbs p then p else cwd ++ "/" ++ p))

/-- Node path.resolve with a single argument: make the path absolute
against the working directory and normalize it. -/
def resolvePath (cwd p : String) : String :=
  "/" ++ joinSegs (absSegs cwd p)

/-- Node path.join of two parts: concatenate with a slash and
normalize. -/
def joinPath (a b : String) : String :=
  let s := if a = "" then b else if b = "" then a else a ++ "/" ++ b
  if s = "" then "."
  else if isAbs s then "/" ++ joinSegs (absNormAux [] (segsOf s))
  else
    let n := relNormAux [] (segsOf s)
    if n = [] then "." else joinSegs n

/-- Drop the common leading segments of two segment lists. -/
def dropCommon : List String → List String → List String × List String
  | a :: as, b :: bs =>
    if a = b then dropCommon as bs else (a :: as, b :: bs)
  | as, bs => (as, bs)

/-- Node path.relative: resolve both paths against the working
directory, drop their common prefix segments, then climb with dot-dot
segments and descend into the target. -/
def relativePath (cwd src dst : String) : String :=
  let p := dropCommon (absSegs cwd src) (absSegs cwd dst)
  joinSegs (p.fst.map (fun _ => "..") ++ p.snd)

/-- Node path.dirname: everything before the last slash, with a dot
for slashless paths and a slash preserved for root children. -/
def dirname (p : String) : String :=
  let parts := (splitChars '/' p.toList).map (fun l => String.mk l)
  match parts with
  | [] => "."
  | [_] => "."
  | _ =>
    if parts.dropLast.all (fun s => s = "") then "/"
    else joinSegs parts.dropLast

/-- The last slash-separated segment of a path. -/
def basenameRaw (p : String) : String :=
  ((splitChars '/' p.toList).map (fun l => String.mk l)).getLastD ""

/-- Whether one character list starts with another. -/
def leadsWith : List Char → List Char → Bool
  | [], _ => true
  | _ :: _, [] => false
  | a :: as, b :: bs => a = b && leadsWith as bs

/-- Node path.extname: the suffix of the last segment from its last
dot, empty when there is no dot or the dot is the first character. -/
def extname (p : String) : String :=
  let b := (basenameRaw p).toList
  let ext := b.reverse.takeWhile (fun c => c ≠ '.')
  if b.length ≤ ext.length + 1 then "" else String.mk ('.' :: ext.reverse)

/-- Node path.basename with an extension argument: the last segment,
with the extension stripped when it is a proper suffix. -/
def basename (p ext : String) : String :=
  let b := basenameRaw p
  if ext ≠ "" && b ≠ ext && leadsWith ext.toList.reverse b.toList.reverse then
    String.mk (b.toList.take (b.toList.length - ext.toList.length))
  else b

/-- The output base path computation of transform (src part_001 lines
27-32): resolve srcdir and outdir with their defaults, join the path of
the file relative to srcdir onto outdir, and rebuild it from its
directory and its extensionless basename. The file reads, the external
transformAsync call and the writes around it are the effectful rest of
transform and take no part in the path computation. -/
def outputBase (cwd : String) (options : PackOptions) (file : String) : String :=
  let srcdir := resolvePath cwd (orStr options.srcdir "src")
  let outdir := resolvePath cwd (orStr options.outdir "out")
  let outfile := joinPath outdir (relativePath cwd srcdir file)
  let outfileDir := dirname outfile
  let outname := basename outfile (extname outfile)
  joinPath outfileDir outname

/-- Scanner state of the comment stripper: ordinary text, inside a
string, after a backslash inside a string, after a slash in ordinary
text, inside a line comment, inside a block comment, and after a star
inside a block comment. -/
inductive StripState where
  | norm
  | instr
  | esc
  | sawSlash
  | line
  | blk
  | blkStar
deriving DecidableEq

/-- One pass of the strip-json-comments library: remove line and block
comments outside of string literals, leaving everything else. The
library replaces comments by whitespace; dropping them instead is
equivalent for the JSON parse that follows. -/
def stripAux : StripState → List Char → List Char
  | StripState.norm, [] => []
  | StripState.norm, c :: rest =>
    if c = '"' then c :: stripAux StripState.instr rest
    else if c = '/' then stripAux StripState.sawSlash rest
    else c :: stripAux StripState.norm rest
  | StripState.sawSlash, [] => ['/']
  | StripState.sawSlash, c :: rest =>
    if c = '/' then stripAux StripState.line rest
    else if c = '*' then stripAux StripState.blk rest
    else if c = '"' then '/' :: c :: stripAux StripState.instr rest
    else '/' :: c :: stripAux StripState.norm rest
  | StripState.instr, [] => []
  | StripState.instr, c :: rest =>
    if c = '\\' then c :: stripAux StripState.esc rest
    else if c = '"' then c :: stripAux StripState.norm rest
    else c :: stripAux StripState.instr rest
  | StripState.esc, [] => []
  | StripState.esc, c :: rest => c :: stripAux StripState.instr rest
  | StripState.line, [] => []
  | StripState.line, c :: rest =>
    if c = '\n' then c :: stripAux StripState.norm rest
    else stripAux StripState.line rest
  | StripState.blk, [] => []
  | StripState.blk, c :: rest =>
    if c = '*' then stripAux StripState.blkStar rest
    else stripAux StripState.blk rest
  | StripState.blkStar, [] => []
  | StripState.blkStar, c :: rest =>
    if c = '/' then stripAux StripState.norm rest
    else if c = '*' then stripAux StripState.blkStar rest
    else stripAux StripState.blk rest

/-- strip-json-comments applied to a whole document. -/
def stripJsonComments (code : String) : String :=
  String.mk (stripAux StripState.norm code.toList)

/-- A parsed JSON document. Numeric literals are kept as integers; the
configuration schema of this repository uses none. -/
inductive Json where
  | str (s : String)
  | boolean (b : Bool)
  | null
  | num (n : Int)
  | arr (elems : List Json)
  | obj (members : List (String × Json))

/-- Skip JSON whitespace. -/
def skipWs : List Char → List Char
  | ' ' :: rest => skipWs rest
  | '\t' :: rest => skipWs rest
  | '\n' :: rest => skipWs rest
  | '\r' :: rest => skipWs rest
  | l => l

/-- Parse the body of a JSON string after its opening quote, handling
the escapes the configuration documents need. -/
def parseStringBody : List Char → Option (String × List Char)
  | [] => none
  | '"' :: rest => some ("", rest)
  | '\\' :: e :: rest =>
    (parseStringBody rest).bind fun p =>
      let c :=
        if e = 'n' then some '\n'
        else if e = 't' then some '\t'
        else if e = 'r' then some '\r'
        else if e = '"' then some '"'
        else if e = '\\' then some '\\'
        else if e = '/' then some '/'
        else none
      c.map fun d => (String.mk (d :: p.fst.toList), p.snd)
  | '\\' :: [] => none
  | c :: rest =>
    (parseStringBody rest).map fun p => (String.mk (c :: p.fst.toList), p.snd)

/-- Parse a run of decimal digits into a natural number. -/
def parseDigits (acc : Nat) : List Char → Nat × List Char
  | c :: rest =>
    if '0' ≤ c ∧ c ≤ '9' then
      parseDigits (acc * 10 + (c.toNat - '0'.toNat)) rest
    else (acc, c :: rest)
  | [] => (acc, [])

/-- A frame of the pushdown JSON parser: an array or object still being
filled, with the members collected so far and, for objects, the key of
the member whose value is being read. -/
inductive JFrame where
  | arrF (items : List Json)
  | objF (done : List (String × Json)) (key : String)

/-- One pushdown parser for JSON documents, fuelled to keep recursion
structural. With no pending value the next value is read and pushed
through; with a pending value the innermost frame consumes it. A
document with trailing garbage fails, as JSON.parse throws there. -/
def parseSteps : Nat → List JFrame → Option Json → List Char → Option Json
  | 0, _, _, _ => none
  | Nat.succ fuel, stack, some v, input =>
    match stack with
    | [] => if skipWs input = [] then some v else none
    | JFrame.arrF items :: s =>
      match skipWs input with
      | ',' :: r => parseSteps fuel (JFrame.arrF (items ++ [v]) :: s) none r
      | ']' :: r => parseSteps fuel s (some (Json.arr (items ++ [v]))) r
      | _ => none
    | JFrame.objF done key :: s =>
      match skipWs input with
      | ',' :: r =>
        (match skipWs r with
         | '"' :: r2 =>
           (parseStringBody r2).bind fun p =>
             match skipWs p.snd with
             | ':' :: r3 =>
               parseSteps fuel (JFrame.objF (done ++ [(key, v)]) p.fst :: s) none r3
             | _ => none
         | _ => none)
      | '}' :: r => parseSteps fuel s (some (Json.obj (done ++ [(key, v)]))) r
      | _ => none
  | Nat.succ fuel, stack, none, input =>
    match skipWs input with
    | [] => none
    | '"' :: r =>
      (parseStringBody r).bind fun p => parseSteps fuel stack (some (Json.str p.fst)) p.snd
    | '[' :: r =>
      (match skipWs r with
       | ']' :: r2 => parseSteps fuel stack (some (Json.arr [])) r2
       | _ => parseSteps fuel (JFrame.arrF [] :: stack) none r)
    | '{' :: r =>
      (match skipWs r with
       | '}' :: r2 => parseSteps fuel stack (some (Json.obj [])) r2
       | '"' :: r2 =>
         (parseStringBody r2).bind fun p =>
           match skipWs p.snd with
           | ':' :: r3 => parseSteps fuel (JFrame.objF [] p.fst :: stack) none r3
           | _ => none
       | _ => none)
    | 't' :: 'r' :: 'u' :: 'e' :: r => parseSteps fuel stack (some (Json.boolean true)) r
    | 'f' :: 'a' :: 'l' :: 's' :: 'e' :: r => parseSteps fuel stack (some (Json.boolean false)) r
    | 'n' :: 'u' :: 'l' :: 'l' :: r => parseSteps fuel stack (some Json.null) r
    | '-' :: c :: r =>
      if '0' ≤ c ∧ c ≤ '9' then
        let p := parseDigits 0 (c :: r)
        parseSteps fuel stack (some (Json.num (-(Int.ofNat p.fst)))) p.snd
      else none
    | c :: r =>
      if '0' ≤ c ∧ c ≤ '9' then
        let p := parseDigits 0 (c :: r)
        parseSteps fuel stack (some (Json.num (Int.ofNat p.fst))) p.snd
      else none

/-- JSON.parse on a document: none models the thrown SyntaxError of a
malformed document. -/
def jsonParse (code : String) : Option Json :=
  parseSteps (code.toList.length + 16) [] none code.toList

/-- Last member of a JSON object under a key, as a JavaScript object
built by JSON.parse keeps the later of duplicate keys. -/
def Json.getField (j : Json) (name : String) : Option Json :=
  match j with
  | Json.obj ms => ((ms.filter (fun m => m.fst = name)).map (fun m => m.snd)).getLast?
  | _ => none

/-- Read an optional string field of the parsed document. -/
def asString : Option Json → Option String
  | some (Json.str s) => some s
  | _ => none

/-- Read an optional boolean field of the parsed document. -/
def asBool : Option Json → Option Bool
  | some (Json.boolean b) => some b
  | _ => none

/-- Read an optional array-of-strings field of the parsed document. -/
def asStringList : Option Json → Option (List String)
  | some (Json.arr xs) =>
    if xs.all (fun x => match x with | Json.str _ => true | _ => false) then
      some (xs.map (fun x => match x with | Json.str s => s | _ => ""))
    else none
  | _ => none

/-- View of a parsed JSON document as the declaration block. -/
def decodeDeclaration (j : Json) : DeclarationOptions :=
  { sourcemap := asBool (j.getField "sourcemap"),
    stripInternal := asBool (j.getField "stripInternal") }

/-- View of a parsed JSON document as the typescript block. -/
def decodeTypescript (j : Json) : TypescriptOptions :=
  { declaration := (j.getField "declaration").map decodeDeclaration,
    onlyRemoveTypeImports := asBool (j.getField "onlyRemoveTypeImports") }

/-- View of a parsed JSON document as a PackOptions record. The source
performs an unchecked cast of the parse result, so a key of unexpected
shape is read as absent. -/
def decodePackOptions (j : Json) : PackOptions :=
  { srcdir := asString (j.getField "srcdir"),
    outdir := asString (j.getField "outdir"),
    includes := asStringList (j.getField "includes"),
    excludes := asStringList (j.getField "excludes"),
    emptyOutdir := asBool (j.getField "emptyOutdir"),
    sourcemap := asBool (j.getField "sourcemap"),
    typescript := (j.getField "typescript").map decodeTypescript,
    lang := asString (j.getField "lang") }

/-- loadJsonOptions from src part_000 lines 111-114: strip comments,
parse as JSON, and return the raw record unchanged. none models the
propagated parse error of JSON.parse on a malformed document. -/
def loadJsonOptions (code : String) : Option PackOptions :=
  (jsonParse (stripJsonComments code)).map decodePackOptions

/-- loadYamlOptions from src part_000 lines 123-126: the external YAML
parser returns null for an empty or null document, modelled by none;
the code falls back to the empty record on that falsy result and
returns any parsed object unchanged. -/
def loadYamlOptions (parsed : Option PackOptions) : PackOptions :=
  match parsed with
  | some raw => raw
  | none => emptyPack

/-- One message of the console logger, with its level. -/
structure LogEntry where
  isError : Bool
  text : String
deriving DecidableEq

/-- Outcome of dynamically importing a configuration script: the
evaluation throws, or it yields a module with an optional default
export and, as fallback, its whole exported surface read as options. -/
inductive ScriptEvalResult where
  | throws (message : String)
  | evaluated (defaultExport : Option PackOptions) (moduleOptions : PackOptions)
deriving DecidableEq

/-- loadJSOptions from src part_000 lines 146-154: import the file;
on success return the default export when present (an object is
truthy), otherwise the module itself; on a thrown error log at error
level and return the empty record. -/
def loadJSOptions (file : String) (imported : ScriptEvalResult) :
    PackOptions × List LogEntry :=
  match imported with
  | ScriptEvalResult.evaluated d m =>
    (match d with | some c => c | none => m, [])
  | ScriptEvalResult.throws msg =>
    (emptyPack,
     [{ isError := true,
        text := "Failed to load JavaScript config from " ++ file ++ ": " ++ msg }])

/-- loadTSOptions from src part_000 lines 164-185: read and transform
the file (transformedCode is the code field of the external transform
result, none or empty when transformation produced nothing, which the
source turns into a thrown error), then import the transformed code;
the whole body is wrapped in a try that logs at error level and
returns the empty record. -/
def loadTSOptions (file : String) (transformedCode : Option String)
    (imported : ScriptEvalResult) : PackOptions × List LogEntry :=
  let failed := fun (msg : String) =>
    ((emptyPack,
      [{ isError := true,
         text := "Failed to load TypeScript config from " ++ file ++ ": " ++ msg }]) :
      PackOptions × List LogEntry)
  match transformedCode with
  | none => failed "Failed to transform TypeScript to JavaScript"
  | some c =>
    if c = "" then failed "Failed to transform TypeScript to JavaScript"
    else
      match imported with
      | ScriptEvalResult.evaluated d m =>
        (match d with | some cfg => cfg | none => m, [])
      | ScriptEvalResult.throws msg => failed msg

/-- RunPathOptions from src part_000 lines 221-224. -/
structure RunPathOptions where
  file : Option String
  root : Option String
deriving DecidableEq

/-- The argument of run (src part_001 line 78): a PackOptions record
together with the optional file and root keys of RunPathOptions. -/
structure RunOptions where
  options : PackOptions
  file : Option String
  root : Option String
deriving DecidableEq

/-- JavaScript truthiness of an optional string. -/
def truthyStr : Option String → Bool
  | some s => if s = "" then false else true
  | none => false

/-- Whether Object.keys of the run argument is empty: no key of the
record is set. -/
def RunOptions.noKeys (o : RunOptions) : Bool :=
  o.options == emptyPack && o.file == none && o.root == none

/-- What run hands to pack: either the record loaded from a detected
or named configuration file (fromConfig carries the path options given
to loadOptions, whose file lookup and parsing are the effectful rest),
or the packing options packed directly with no file lookup. -/
inductive PackSource where
  | fromConfig (path : RunPathOptions)
  | direct (options : RunOptions)
deriving DecidableEq

/-- run from src part_001 lines 78-84: with a truthy file or root key,
load from that location; with no argument or an empty object, detect a
configuration file under the current working directory; otherwise pack
the given options directly. -/
def run (cwd : String) (options : Option RunOptions) : PackSource :=
  match options with
  | none => PackSource.fromConfig { file := none, root := some cwd }
  | some o =>
    if truthyStr o.file || truthyStr o.root then
      PackSource.fromConfig { file := o.file, root := o.root }
    else if o.noKeys then
      PackSource.fromConfig { file := none, root := some cwd }
    else PackSource.direct o

/-- Truthy-or-default on a boolean with default true always yields
true: a present true stays, a present false and an absent value both
fall to the default. -/
theorem orBool_true (a : Option Bool) : orBool a true = true := by
  cases a with
  | none => rfl
  | some b => cases b <;> rfl

/-- Truthy-or-default on a string is idempotent. -/
theorem orStr_idem (a : Option String) (d : String) :
    orStr (some (orStr a d)) d = orStr a d := by
  cases a with
  | none => simp [orStr]
  | some s => by_cases hs : s = "" <;> simp [orStr, hs]

/-- The typescript block resolution is idempotent: after one pass the
declaration member is a present object, which a second pass keeps. -/
theorem resolveTypescript_idem (t : Option TypescriptOptions) :
    resolveTypescript (some (resolveTypescript t)) = resolveTypescript t := by
  cases t with
  | none => rfl
  | some x =>
    obtain ⟨d, orti⟩ := x
    cases d <;> rfl

/-- C1: resolveOptions on the empty record yields srcdir src, outdir
out, a ts-only includes default, the three documented excludes, a
forced sourcemap and typescript declaration block, and leaves
emptyOutdir absent. In particular the includes default is not the
all-files pattern the documentation states, and emptyOutdir is not
populated with false. -/
theorem resolveOptions_empty_eval :
    resolveOptions emptyPack =
      { srcdir := some "src", outdir := some "out", includes := some ["**/*.ts"],
        excludes := some ["node_modules/**/*", "**/*.test.ts", "**/test/**/*"],
        emptyOutdir := none, sourcemap := some true,
        typescript := some { declaration := some { sourcemap := some true, stripInternal := none },
                             onlyRemoveTypeImports := none },
        lang := none } ∧
    (resolveOptions emptyPack).includes ≠ some ["**/*"] ∧
    (resolveOptions emptyPack).emptyOutdir ≠ some false := by
  decide

/-- C2: resolution is idempotent, resolving a resolved record changes
nothing. -/
theorem resolveOptions_idem (p : PackOptions) :
    resolveOptions (resolveOptions p) = resolveOptions p := by
  obtain ⟨s, o, i, e, eo, sm, ts, lg⟩ := p
  have h1 := orStr_idem s "src"
  have h2 := orStr_idem o "out"
  have h3 := resolveTypescript_idem ts
  simp [resolveOptions, h1, h2, h3, orList, orBool_true]

/-- C3 counterexample: a srcdir explicitly present as the empty string
is overwritten by the default, so resolution does change an explicitly
supplied field value. -/
theorem resolveOptions_overwrites_empty_string :
    (resolveOptions { emptyPack with srcdir := some "" }).srcdir = some "src" ∧
    (resolveOptions { emptyPack with srcdir := some "" }).srcdir ≠
      ({ emptyPack with srcdir := some "" } : PackOptions).srcdir := by
  decide

/-- C3 amended: resolution preserves truthy supplied values, any
present array including the empty array, and the untouched emptyOutdir
field, but a scalar supplied as the empty string or as false is
replaced by its default. -/
theorem resolveOptions_preserves_truthy (p : PackOptions) :
    (∀ s, p.srcdir = some s → s ≠ "" → (resolveOptions p).srcdir = some s) ∧
    (∀ s, p.outdir = some s → s ≠ "" → (resolveOptions p).outdir = some s) ∧
    (∀ l, p.includes = some l → (resolveOptions p).includes = some l) ∧
    (∀ l, p.excludes = some l → (resolveOptions p).excludes = some l) ∧
    (resolveOptions p).emptyOutdir = p.emptyOutdir ∧
    (p.srcdir = some "" → (resolveOptions p).srcdir = some "src") ∧
    (p.sourcemap = some false → (resolveOptions p).sourcemap = some true) := by
  obtain ⟨s, o, i, e, eo, sm, ts, lg⟩ := p
  refine ⟨?_, ?_, ?_, ?_, rfl, ?_, ?_⟩
  · intro x hx hne
    simp only [Option.some.injEq] at hx  -- placeholder, adjusted below
    subst hx
    simp [resolveOptions, orStr, hne]
  · intro x hx hne
    simp only [Option.some.injEq] at hx
    subst hx
    simp [resolveOptions, orStr, hne]
  · intro l hl
    simp only [Option.some.injEq] at hl
    subst hl
    simp [resolveOptions, orList]
  · intro l hl
    simp only [Option.some.injEq] at hl
    subst hl
    simp [resolveOptions, orList]
  · intro hx
    simp only [Option.some.injEq] at hx
    subst hx
    simp [resolveOptions, orStr]
  · intro hx
    simp only [Option.some.injEq] at hx
    subst hx
    simp [resolveOptions, orBool]

/-- C3 amended witness at a concrete record: the truthy srcdir and the
empty includes array survive, emptyOutdir passes through, the false
sourcemap is forced to true. -/
theorem resolveOptions_preserves_truthy_witness :
    (resolveOptions { emptyPack with srcdir := some "app", includes := some [], emptyOutdir := some false, sourcemap := some false }).srcdir = some "app" ∧
    (resolveOptions { emptyPack with srcdir := some "app", includes := some [], emptyOutdir := some false, sourcemap := some false }).includes = some [] ∧
    (resolveOptions { emptyPack with srcdir := some "app", includes := some [], emptyOutdir := some false, sourcemap := some false }).emptyOutdir = some false ∧
    (resolveOptions { emptyPack with srcdir := some "app", includes := some [], emptyOutdir := some false, sourcemap := some false }).sourcemap = some true :=
  ⟨(resolveOptions_preserves_truthy _).1 "app" rfl (by decide),
   (resolveOptions_preserves_truthy _).2.2.1 [] rfl,
   (resolveOptions_preserves_truthy _).2.2.2.2.1,
   (resolveOptions_preserves_truthy _).2.2.2.2.2.2 rfl⟩

set_option maxHeartbeats 4000000 in
/-- C4: loading the commented JSON document with a single srcdir key
yields the raw record whose only present field is srcdir, not the
record with every other field defaulted that the loader documentation
and tests promise. -/
theorem loadJsonOptions_not_defaulted :
    loadJsonOptions "\x7b\n  // note\n  \"srcdir\": \"source\"\n\x7d" =
      some { srcdir := some "source", outdir := none, includes := none, excludes := none,
             emptyOutdir := none, sourcemap := none, typescript := none, lang := none } ∧
    loadJsonOptions "\x7b\n  // note\n  \"srcdir\": \"source\"\n\x7d" ≠
      some (resolveOptions { emptyPack with srcdir := some "source" }) := by
  decide

set_option maxHeartbeats 4000000 in
/-- C5: for srcdir /proj/src, outdir /proj/out and the file
/proj/src/a/b.ts, the output base path is /proj/out/a/b: the path
relative to the source directory, joined onto the output directory,
with the final extension stripped. -/
theorem outputBase_maps_relative_path :
    outputBase "/work"
      { emptyPack with srcdir := some "/proj/src", outdir := some "/proj/out" }
      "/proj/src/a/b.ts" = "/proj/out/a/b" := by
  decide

/-- C6: a present includes array that is nonempty is carried through
resolution verbatim. -/
theorem resolveOptions_includes_verbatim (p : PackOptions) (l : List String)
    (h : p.includes = some l) (hn : l ≠ []) :
    (resolveOptions p).includes = p.includes := by
  obtain ⟨s, o, i, e, eo, sm, ts, lg⟩ := p
  simp only at h
  subst h
  simp [resolveOptions, orList]

/-- C6 witness at a concrete record. -/
theorem resolveOptions_includes_verbatim_witness :
    (resolveOptions { emptyPack with includes := some ["src/**/*"] }).includes =
      ({ emptyPack with includes := some ["src/**/*"] } : PackOptions).includes :=
  resolveOptions_includes_verbatim _ ["src/**/*"] rfl (by decide)

/-- C7 counterexample: a top-level sourcemap explicitly present as
false is forced to true, not left as supplied. -/
theorem sourcemap_false_not_preserved :
    (resolveOptions { emptyPack with sourcemap := some false }).sourcemap = some true ∧
    (resolveOptions { emptyPack with sourcemap := some false }).sourcemap ≠
      ({ emptyPack with sourcemap := some false } : PackOptions).sourcemap := by
  decide

/-- C7 amended: resolution always forces the top-level sourcemap to
true, absent or supplied, passes the other transform fields through
verbatim, keeps a present declaration block verbatim including a falsy
or absent nested sourcemap, and only when the declaration block is
absent substitutes a block with sourcemap true. -/
theorem transformOptions_resolution (p : PackOptions) :
    (resolveOptions p).sourcemap = some true ∧
    (resolveOptions p).lang = p.lang ∧
    (∀ t d, p.typescript = some t → t.declaration = some d →
      (resolveOptions p).typescript =
        some { declaration := some d,
               onlyRemoveTypeImports := t.onlyRemoveTypeImports }) ∧
    (p.typescript.bind TypescriptOptions.declaration = none →
      (resolveOptions p).typescript =
        some { declaration := some { sourcemap := some true, stripInternal := none },
               onlyRemoveTypeImports :=
                 p.typescript.bind TypescriptOptions.onlyRemoveTypeImports }) := by
  obtain ⟨s, o, i, e, eo, sm, ts, lg⟩ := p
  refine ⟨by simp [resolveOptions, orBool_true], rfl, ?_, ?_⟩
  · intro t d ht hd
    simp only at ht
    subst ht
    obtain ⟨td, orti⟩ := t
    simp only at hd
    subst hd
    simp [resolveOptions, resolveTypescript, orDecl]
  · intro h
    cases ts with
    | none => simp [resolveOptions, resolveTypescript, orDecl, orBool]
    | some t =>
      obtain ⟨td, orti⟩ := t
      simp only [Option.bind] at h
      subst h
      simp [resolveOptions, resolveTypescript, orDecl, orBool]

/-- C7 amended witness at a concrete record: a present declaration
block with sourcemap false is kept verbatim while the top-level
sourcemap is forced to true. -/
theorem transformOptions_resolution_witness :
    (resolveOptions { emptyPack with typescript := some { declaration := some { sourcemap := some false, stripInternal := none }, onlyRemoveTypeImports := some true } }).sourcemap = some true ∧
    (resolveOptions { emptyPack with typescript := some { declaration := some { sourcemap := some false, stripInternal := none }, onlyRemoveTypeImports := some true } }).typescript =
      some { declaration := some { sourcemap := some false, stripInternal := none }, onlyRemoveTypeImports := some true } :=
  ⟨(transformOptions_resolution _).1,
   (transformOptions_resolution _).2.2.1
     { declaration := some { sourcemap := some false, stripInternal := none }, onlyRemoveTypeImports := some true }
     { sourcemap := some false, stripInternal := none } rfl rfl⟩

/-- C8: a configuration script whose evaluation throws is caught by
both script loaders, which log an error-level message and return the
empty record instead of propagating, and packing that empty record
resolves to the fully defaulted configuration. -/
theorem script_eval_error_failsoft (file msg : String) (code : Option String) :
    loadJSOptions file (ScriptEvalResult.throws msg) =
      (emptyPack,
       [{ isError := true,
          text := "Failed to load JavaScript config from " ++ file ++ ": " ++ msg }]) ∧
    (loadTSOptions file code (ScriptEvalResult.throws msg)).fst = emptyPack ∧
    (∀ e ∈ (loadTSOptions file code (ScriptEvalResult.throws msg)).snd, e.isError = true) ∧
    (loadTSOptions file code (ScriptEvalResult.throws msg)).snd ≠ [] ∧
    resolveOptions emptyPack =
      { srcdir := some "src", outdir := some "out", includes := some ["**/*.ts"],
        excludes := some ["node_modules/**/*", "**/*.test.ts", "**/test/**/*"],
        emptyOutdir := none, sourcemap := some true,
        typescript := some { declaration := some { sourcemap := some true, stripInternal := none },
                             onlyRemoveTypeImports := none },
        lang := none } := by
  refine ⟨rfl, ?_, ?_, ?_, by decide⟩ <;>
    cases code with
    | none => simp [loadTSOptions]
    | some c => by_cases hc : c = "" <;> simp [loadTSOptions, hc]

/-- C9: the YAML loader maps the null parse result of an empty or null
document to the empty record without error, and returns any parsed
object unchanged. -/
theorem loadYamlOptions_empty_document :
    loadYamlOptions none = emptyPack ∧ ∀ p, loadYamlOptions (some p) = p :=
  ⟨rfl, fun _ => rfl⟩

/-- C10: a nonempty run argument with neither a truthy file key nor a
truthy root key is packed directly, and a configuration file lookup
only ever happens for a missing argument, an empty argument object, or
an argument with a truthy file or root key. -/
theorem run_direct_no_lookup (cwd : String) (o : RunOptions)
    (hf : o.file = none) (hr : o.root = none) (hk : o.noKeys = false) :
    run cwd (some o) = PackSource.direct o ∧
    (∀ opts pth, run cwd opts = PackSource.fromConfig pth →
      opts = none ∨ ∃ q, opts = some q ∧
        (q.noKeys = true ∨ truthyStr q.file = true ∨ truthyStr q.root = true)) := by
  constructor
  · simp [run, hf, hr, truthyStr, hk]
  · intro opts pth h
    cases opts with
    | none => exact Or.inl rfl
    | some q =>
      refine Or.inr ⟨q, rfl, ?_⟩
      by_cases h1 : truthyStr q.file = true
      · exact Or.inr (Or.inl h1)
      · by_cases h2 : truthyStr q.root = true
        · exact Or.inr (Or.inr h2)
        · by_cases h3 : q.noKeys = true
          · exact Or.inl h3
          · exfalso
            simp [run, h1, h2, h3] at h

/-- C10 witness at a concrete nonempty argument without file and root
keys: it is packed directly. -/
theorem run_direct_no_lookup_witness :
    run "/work" (some { options := { emptyPack with srcdir := some "lib" },
                        file := none, root := none }) =
      PackSource.direct { options := { emptyPack with srcdir := some "lib" },
                          file := none, root := none } :=
  (run_direct_no_lookup "/work"
    { options := { emptyPack with srcdir := some "lib" }, file := none, root := none }
    rfl rfl (by decide)).1

end LibraryPack
